import Mathlib

/-!
Shallow embedding of `ext/sdk/resources/sdk-root/sdk/src/api/ServerApi.ts`.

The `ServerApi` class is modelled as an explicit state record (`ApiState`)
together with one Lean function per method / event handler of the class.
External effects are made observable state:
  * messages written to the IPC socket accumulate in `sentIpc`;
  * events emitted on the `ApiClient` bus accumulate in `emitted`;
  * `client.log` calls accumulate (as fixed message tags) in `log`;
  * the `<fxserverCwd>/resources` directory is the `resourcesDir` field;
  * outcomes of the external filesystem / process operations (`rimraf`,
    `mkdirp`, `fs.promises.symlink`, `cp.execFile`) are supplied by an
    `FsOracle`.
Asynchronous handler invocations (socket connection, inbound line, process
exit, IPC-server close, control-surface commands) are events of an `ApiEvent`
type; `step` runs one event exactly as the corresponding TypeScript handler
does.
-/

namespace ServerApiModel

/-- States of the server lifecycle, `ServerStates` from `api.types`. -/
inductive ServerStates where
  | down
  | booting
  | up
  deriving DecidableEq

/-- JavaScript values as produced by `JSON.parse`, plus `undefined` (which
array destructuring yields for missing elements).  Objects, floating point
numbers and string escape sequences are outside the modelled subset of JSON;
a line using them is treated as a parse failure. -/
inductive Json where
  | null
  | undef
  | bool (b : Bool)
  | num (n : Int)
  | str (s : String)
  | arr (xs : List Json)

/-- Skip JSON whitespace. -/
def skipWs : List Char → List Char
  | [] => []
  | c :: cs => if c = ' ' || c = '\t' || c = '\n' || c = '\r' then skipWs cs else c :: cs

/-- Parse the body of a JSON string after the opening quote (no escapes). -/
def parseStrBody : List Char → Option (List Char × List Char)
  | [] => none
  | c :: cs =>
    if c = '"' then some ([], cs)
    else if c = '\\' then none
    else
      match parseStrBody cs with
      | some (b, rest) => some (c :: b, rest)
      | none => none

/-- Longest digit run at the front of the input. -/
def parseDigits : List Char → List Char × List Char
  | [] => ([], [])
  | c :: cs =>
    if c.isDigit then
      let (ds, rest) := parseDigits cs
      (c :: ds, rest)
    else ([], c :: cs)

/-- Numeric value of a digit run. -/
def digitsToNat (ds : List Char) : Nat :=
  ds.foldl (fun n c => n * 10 + (c.toNat - 48)) 0

/-- Strip an expected literal from the front of the input. -/
def dropLit : List Char → List Char → Option (List Char)
  | [], cs => some cs
  | l :: ls, c :: cs => if c = l then dropLit ls cs else none
  | _ :: _, [] => none

mutual

/-- Fuel-indexed parser for one JSON value (subset: null, booleans, integers,
escape-free strings, arrays). -/
def parseVal : Nat → List Char → Option (Json × List Char)
  | 0, _ => none
  | fuel + 1, cs0 =>
    match skipWs cs0 with
    | [] => none
    | c :: rest =>
      if c = '"' then
        match parseStrBody rest with
        | some (b, r) => some (Json.str (String.mk b), r)
        | none => none
      else if c = '[' then
        parseArrTail fuel rest
      else if c = 'n' then
        match dropLit ['u', 'l', 'l'] rest with
        | some r => some (Json.null, r)
        | none => none
      else if c = 't' then
        match dropLit ['r', 'u', 'e'] rest with
        | some r => some (Json.bool true, r)
        | none => none
      else if c = 'f' then
        match dropLit ['a', 'l', 's', 'e'] rest with
        | some r => some (Json.bool false, r)
        | none => none
      else if c = '-' then
        match parseDigits rest with
        | ([], _) => none
        | (ds, r) => some (Json.num (-(digitsToNat ds : Int)), r)
      else if c.isDigit then
        match parseDigits (c :: rest) with
        | (ds, r) => some (Json.num (digitsToNat ds), r)
      else none

/-- Fuel-indexed parser for the remainder of a JSON array after `[`. -/
def parseArrTail : Nat → List Char → Option (Json × List Char)
  | 0, _ => none
  | fuel + 1, cs =>
    match skipWs cs with
    | ']' :: r => some (Json.arr [], r)
    | cs1 =>
      match parseVal fuel cs1 with
      | none => none
      | some (v, r1) =>
        match skipWs r1 with
        | ',' :: r2 =>
          match parseArrTail fuel r2 with
          | some (Json.arr vs, r3) => some (Json.arr (v :: vs), r3)
          | _ => none
        | ']' :: r2 => some (Json.arr [v], r2)
        | _ => none

end

/-- Model of `JSON.parse` on one inbound line (subset of JSON; inputs outside
the subset count as parse failures and take the `catch` path, which is the
same observable behaviour as a genuine parse error). -/
def jsonParse (s : String) : Option Json :=
  match parseVal (s.length + 1) s.data with
  | some (v, rest) => if skipWs rest = [] then some v else none
  | none => none

/-- JavaScript destructuring `const [type, data] = v` (line 242): arrays give
their first two elements (`undefined` when absent); strings are iterable and
give their first two characters as 1-character strings; every other value
raises a TypeError, modelled as `none` (the exception is caught by the
try/catch of the handler). -/
def destruct2 : Json → Option (Json × Json)
  | Json.arr xs => some (xs.getD 0 Json.undef, xs.getD 1 Json.undef)
  | Json.str s =>
    match s.data with
    | [] => some (Json.undef, Json.undef)
    | [c] => some (Json.str (String.mk [c]), Json.undef)
    | c1 :: c2 :: _ => some (Json.str (String.mk [c1]), Json.str (String.mk [c2]))
  | _ => none

/-- The destructured `type` of an inbound line, when the line parses and
destructures; `none` when the catch branch of the handler runs instead. -/
def parsedType (msg : String) : Option Json :=
  match jsonParse msg with
  | none => none
  | some v =>
    match destruct2 v with
    | none => none
    | some (t, _) => some t

/-- Split a character list at every `/`. -/
def splitSlash : List Char → List (List Char)
  | [] => [[]]
  | c :: cs =>
    if c = '/' then [] :: splitSlash cs
    else
      match splitSlash cs with
      | [] => [[c]]
      | seg :: rest => (c :: seg) :: rest

/-- Model of `path.basename` (posix behaviour): the last non-empty path segment;
`/` for an all-separator non-empty path, `` for the empty path. -/
def basename (p : String) : String :=
  match ((splitSlash p.data).filter (fun s => !s.isEmpty)).getLast? with
  | some c => String.mk c
  | none => if p.data.isEmpty then "" else "/"

/-- JavaScript `String.prototype.startsWith` on the underlying character
lists. -/
def jsStartsWith (s pre : String) : Bool :=
  pre.data.isPrefixOf s.data

/-- Request type `ServerStartRequest` from `api.types`. -/
structure ServerStartRequest where
  projectPath : String
  enabledResourcesPaths : List String
  deriving DecidableEq

/-- Request type `ServerRefreshResourcesRequest` from `api.types`. -/
structure ServerRefreshResourcesRequest where
  projectPath : String
  enabledResourcesPaths : List String
  deriving DecidableEq

/-- Request type `RelinkResourcesRequest` from `api.types`; `restartResourcesWithPath` is
optional in the code (`if (restartResourcesWithPath)` is a truthiness test). -/
structure RelinkResourcesRequest where
  projectPath : String
  resourcesPaths : List String
  restartResourcesWithPath : Option String
  deriving DecidableEq

/-- The four control-surface events for which the `connection` handler
registers connection-scoped forwarding handlers (lines 223-236). -/
inductive HandlerKind where
  | ackResourcesState
  | restartResource
  | stopResource
  | startResource
  deriving DecidableEq

/-- Events emitted on the `ApiClient` bus towards the UI. -/
inductive ClientEvent where
  | stateEv (s : ServerStates)
  | clearOutput
  | output (line : String)
  | resourcesState (d : Json)

/-- One entry of the `resources` directory: a directory link named
`basename(source)` pointing at `source`. -/
structure ResourceLink where
  name : String
  source : String
  deriving DecidableEq

/-- Outcome oracle for the external filesystem / process effects: `rimraf`
(directory removal), `mkdirp` (directory creation), `fs.promises.symlink`
(per destination name), and `cp.execFile` producing a usable handle. -/
structure FsOracle where
  rimrafOk : Bool
  mkdirpOk : Bool
  linkFails : String → Bool
  spawnOk : Bool

/-- The oracle on which every external operation succeeds. -/
def allOk : FsOracle := ⟨true, true, fun _ => false, true⟩

/-- The mutable state of one `ServerApi` instance, plus its observable
effect streams. -/
structure ApiState where
  state : ServerStates
  ipcServer : Bool
  ipcSocket : Option Nat
  server : Bool
  currentEnabledResourcesPaths : List String
  /-- every connection-scoped handler currently registered on the client bus -/
  clientHandlers : List (Nat × HandlerKind)
  /-- the disposer tokens held by the current `setupIpc` closure -/
  disposableHandlers : List (Nat × HandlerKind)
  resourcesDir : List ResourceLink
  log : List String
  emitted : List ClientEvent
  sentIpc : List (String × Json)

/-- Field initialisers of the class (lines 26-32); the constructor registers
bus handlers but emits nothing. -/
def initialState : ApiState :=
  { state := ServerStates.down, ipcServer := false, ipcSocket := none, server := false,
    currentEnabledResourcesPaths := [], clientHandlers := [], disposableHandlers := [],
    resourcesDir := [], log := [], emitted := [], sentIpc := [] }

/-- Method `ackState` (lines 76-78): emit the current state on the bus. -/
def ackState (st : ApiState) : ApiState :=
  { st with emitted := st.emitted ++ [ClientEvent.stateEv st.state] }

/-- Method `toState` (lines 274-277): set the state, then broadcast it. -/
def toState (newState : ServerStates) (st : ApiState) : ApiState :=
  ackState { st with state := newState }

/-- Method `sendIpcEvent` (lines 199-210): with no peer socket, log and drop;
otherwise log and write the serialised `[eventType, data]` line. -/
def sendIpcEvent (eventType : String) (data : Json) (st : ApiState) : ApiState :=
  if st.ipcSocket.isNone then
    { st with log := st.log ++ ["No ipcSocket"] }
  else
    { st with
        log := st.log ++ ["Sending ipcEvent"]
        sentIpc := st.sentIpc ++ [(eventType, data)] }

/-- Modelled from the spec: `paths.sdkGame`, the source path of the bridge resource
path (imported from `../paths`, which is not under `src/`).  Only the fixed link name `sdk-game` matters to the claims. -/
def sdkGamePath : String := "/sdk/resources/sdk-game"

/-- The link list of `linkResources` (lines 170-178): one link per desired
resource, with the bridge resource unshifted in front. -/
def mkLinks (resourcesPaths : List String) : List ResourceLink :=
  { name := "sdk-game", source := sdkGamePath }
    :: resourcesPaths.map (fun p => { name := basename p, source := p })

/-- One linearisation of the `Promise.all` of `fs.promises.symlink` calls
(lines 180-188): each link is attempted independently; a failing creation
(oracle failure, or an already existing destination name) only appends the
`Failed to link resource` log entry. -/
def createLinks (o : FsOracle) (dir : List ResourceLink) :
    List ResourceLink → List ResourceLink × List String
  | [] => (dir, [])
  | l :: ls =>
    if o.linkFails l.name || dir.any (fun d => d.name == l.name) then
      let r := createLinks o dir ls
      (r.1, "Failed to link resource" :: r.2)
    else
      createLinks o (dir ++ [l]) ls

/-- The filesystem part of `linkResources` (lines 164-188): `await rimraf`
and `await mkdirp` propagate their failure to the caller; then the links are
created on the emptied directory.  Returns the directory content and the
link-failure log entries. -/
def linkComputation (o : FsOracle) (resourcesPaths : List String) :
    Except Unit (List ResourceLink × List String) :=
  if o.rimrafOk = false then Except.error ()
  else if o.mkdirpOk = false then Except.error ()
  else Except.ok (createLinks o [] (mkLinks resourcesPaths))

/-- Method `linkResources` (lines 164-191): reconcile the resources directory, then
send the `refresh` IPC directive. -/
def linkResources (o : FsOracle) (resourcesPaths : List String) (st : ApiState) :
    Except Unit ApiState :=
  match linkComputation o resourcesPaths with
  | Except.error e => Except.error e
  | Except.ok dl =>
    Except.ok (sendIpcEvent "refresh" Json.undef
      { st with
          resourcesDir := dl.1
          log := st.log ++ dl.2 })

/-- The fixed base argument list of `start` (lines 101-110). -/
def baseFxserverArgs : List String :=
  ["+exec", "blank",
   "+endpoint_add_tcp", "127.0.0.1:30120",
   "+endpoint_add_udp", "127.0.0.1:30120",
   "+set", "onesync", "on",
   "+set", "sv_maxclients", "64",
   "+set", "sv_lan", "1",
   "+add_ace", "resource.sdk-game", "command", "allow",
   "+ensure", "sdk-game"]

/-- The full launch argument list (lines 101-114): the base list, then the
`forEach` pushing `+ensure basename(resourcePath)` per enabled resource. -/
def fxserverArgs (enabledResourcesPaths : List String) : List String :=
  enabledResourcesPaths.foldl
    (fun args resourcePath => args ++ ["+ensure", basename resourcePath])
    baseFxserverArgs

/-- Method `setupIpc` (lines 213-272) up to `listen`: create the listening server
and a fresh (empty) closure-scoped disposer list.  Handlers are registered
later, by each `connection` event. -/
def setupIpc (st : ApiState) : ApiState :=
  { st with ipcServer := true, disposableHandlers := [] }

/-- The opening of `start` (lines 89-93): log, clear the output pane, and
transition to `booting`. -/
def startPrelude (st : ApiState) : ApiState :=
  toState ServerStates.booting
    { st with
        log := st.log ++ ["Starting server in"]
        emitted := st.emitted ++ [ClientEvent.clearOutput] }

/-- The tail of `start` after linking succeeded (lines 116-150): a spawn
failure logs and returns; otherwise open the IPC channel, store the process
handle and record the enabled resource paths. -/
def startAfterLink (o : FsOracle) (request : ServerStartRequest)
    (st3 : ApiState) : ApiState :=
  if o.spawnOk = false then
    { st3 with log := st3.log ++ ["Server has failed to start"] }
  else
    { setupIpc st3 with
        server := true
        currentEnabledResourcesPaths := request.enabledResourcesPaths }

/-- Method `start` (lines 86-151).  The awaited `linkResources` rejection aborts the
rest of the method. -/
def start (o : FsOracle) (request : ServerStartRequest) (st : ApiState) : ApiState :=
  match linkResources o request.enabledResourcesPaths (startPrelude st) with
  | Except.error _ => startPrelude st
  | Except.ok st3 => startAfterLink o request st3

/-- Method `refreshResources` (lines 153-162): re-link, then send one more explicit
`refresh` directive.  Note: `currentEnabledResourcesPaths` is not assigned. -/
def refreshResources (o : FsOracle) (request : ServerRefreshResourcesRequest)
    (st : ApiState) : ApiState :=
  match linkResources o request.enabledResourcesPaths st with
  | Except.error _ => st
  | Except.ok st2 => sendIpcEvent "refresh" Json.undef st2

/-- The `resourcesToRestart` computation of `handleRelinkResources`
(lines 61-67); `if (restartResourcesWithPath)` is false for the absent and
for the empty string. -/
def restartTargets (st : ApiState) (request : RelinkResourcesRequest) : List String :=
  match request.restartResourcesWithPath with
  | none => []
  | some p =>
    if p = "" then []
    else
      (st.currentEnabledResourcesPaths.filter
        (fun resourcePath => jsStartsWith resourcePath p)).map basename

/-- The `forEach` of `handleRelinkResources` (lines 71-73). -/
def sendRestarts (names : List String) (st : ApiState) : ApiState :=
  names.foldl (fun s n => sendIpcEvent "restart" (Json.str n) s) st

/-- Method `handleRelinkResources` (lines 53-74): a no-op unless the state is `up`;
otherwise re-link and send a `restart` directive per matching basename. -/
def handleRelinkResources (o : FsOracle) (request : RelinkResourcesRequest)
    (st : ApiState) : ApiState :=
  if st.state ≠ ServerStates.up then st
  else
    match linkResources o request.resourcesPaths st with
    | Except.error _ => st
    | Except.ok st2 => sendRestarts (restartTargets st request) st2

/-- Method `handleResourceRestart` (lines 193-197). -/
def handleResourceRestart (resourceName : String) (st : ApiState) : ApiState :=
  sendIpcEvent "restart" (Json.str resourceName)
    { st with log := st.log ++ ["Restarting resource"] }

/-- The handlers registered by one `connection` event (lines 223-236), tagged
tagged by the socket id of the connection. -/
def connectionHandlers (sock : Nat) : List (Nat × HandlerKind) :=
  [(sock, HandlerKind.ackResourcesState), (sock, HandlerKind.restartResource),
   (sock, HandlerKind.stopResource), (sock, HandlerKind.startResource)]

/-- The `connection` handler (lines 218-258): replace the peer reference and
push four connection-scoped client-bus handlers. -/
def onConnection (sock : Nat) (st : ApiState) : ApiState :=
  { st with
      ipcSocket := some sock
      log := st.log ++ ["IPC connection!"]
      clientHandlers := st.clientHandlers ++ connectionHandlers sock
      disposableHandlers := st.disposableHandlers ++ connectionHandlers sock }

/-- The ipc-server `close` handler (lines 260-269): clear the server and peer
references and dispose every handler held by the disposer list of the closure. -/
def onIpcServerClose (st : ApiState) : ApiState :=
  { st with
      ipcServer := false
      ipcSocket := none
      clientHandlers := st.clientHandlers.filter
        (fun h => !(st.disposableHandlers.contains h))
      disposableHandlers := [] }

/-- The server `exit` handler (lines 137-145): request the close of the ipc server
(whose `close` event is delivered separately), clear the process handle, and
transition to `down`. -/
def onServerExit (st : ApiState) : ApiState :=
  toState ServerStates.down { st with server := false }

/-- The connection-scoped handlers a `serverApi.restartResource` bus event
reaches (all registered ones of that kind, in registration order). -/
def invokedRestartHandlers (st : ApiState) : List (Nat × HandlerKind) :=
  st.clientHandlers.filter (fun h => h.2 == HandlerKind.restartResource)

/-- Dispatch of a `serverApi.restartResource` bus event: the permanent
constructor handler (line 49) runs first, then every connection-scoped
forwarding handler of that kind (lines 227-229). -/
def onClientRestartResource (resourceName : String) (st : ApiState) : ApiState :=
  let st1 := handleResourceRestart resourceName st
  (invokedRestartHandlers st1).foldl
    (fun s _ => sendIpcEvent "restart" (Json.str resourceName) s) st1

/-- The `lineStream` `data` handler (lines 240-255): parse, destructure and
dispatch on the `type`; any exception is caught and logged. -/
def handleLine (msg : String) (st : ApiState) : ApiState :=
  match jsonParse msg with
  | none => { st with log := st.log ++ ["Error parsing message from sdk-game:"] }
  | some v =>
    match destruct2 v with
    | none => { st with log := st.log ++ ["Error parsing message from sdk-game:"] }
    | some (t, d) =>
      match t with
      | Json.str s =>
        if s = "state" then
          { st with emitted := st.emitted ++ [ClientEvent.resourcesState d] }
        else if s = "ready" then
          toState ServerStates.up st
        else st
      | _ => st

/-- The asynchronous events a `ServerApi` instance reacts to. -/
inductive ApiEvent where
  | start (request : ServerStartRequest)
  | stop
  | refresh (request : ServerRefreshResourcesRequest)
  | relink (request : RelinkResourcesRequest)
  | ack
  | clientRestartResource (resourceName : String)
  | connect (sock : Nat)
  | socketClosed
  | serverClosed
  | line (msg : String)
  | stdoutData (chunk : String)
  | processExit
  deriving DecidableEq

/-- One event step.  `stop` only signals the process (`kill`, line 82) — its
state effect arrives as the later `processExit` event; a peer socket ending
(`socketClosed`) has no registered handler in the code, so it changes
nothing. -/
def step (o : FsOracle) (st : ApiState) : ApiEvent → ApiState
  | ApiEvent.start request => start o request st
  | ApiEvent.stop => st
  | ApiEvent.refresh request => refreshResources o request st
  | ApiEvent.relink request => handleRelinkResources o request st
  | ApiEvent.ack => ackState st
  | ApiEvent.clientRestartResource n => onClientRestartResource n st
  | ApiEvent.connect sock => onConnection sock st
  | ApiEvent.socketClosed => st
  | ApiEvent.serverClosed => onIpcServerClose st
  | ApiEvent.line msg => handleLine msg st
  | ApiEvent.stdoutData chunk =>
    { st with
        log := st.log ++ ["server output:"]
        emitted := st.emitted ++ [ClientEvent.output chunk] }
  | ApiEvent.processExit => onServerExit st

/-- Run a sequence of events. -/
def run (o : FsOracle) (st : ApiState) (evs : List ApiEvent) : ApiState :=
  evs.foldl (step o) st

/-- The values taken by the `state` field after each event of a run. -/
def traceTail (o : FsOracle) (st : ApiState) : List ApiEvent → List ServerStates
  | [] => []
  | e :: rest => (step o st e).state :: traceTail o (step o st e) rest

/-- The full `state` trajectory of a run (initial value included). -/
def stateTrace (o : FsOracle) (st : ApiState) (evs : List ApiEvent) : List ServerStates :=
  st.state :: traceTail o st evs

/-- Remove consecutive duplicates: the sequence of distinct values the
`state` field moves through. -/
def dedupRun : List ServerStates → List ServerStates
  | [] => []
  | [a] => [a]
  | a :: b :: rest => if a = b then dedupRun (b :: rest) else a :: dedupRun (b :: rest)

/-- Events that may occur strictly between a `start` call and the process
exit ending it. -/
def isMidEv : ApiEvent → Bool
  | ApiEvent.start _ => false
  | ApiEvent.processExit => false
  | _ => true

/-- Whether a destructured `type` is the string `ready`. -/
def isReadyType : Option Json → Bool
  | some (Json.str s) => s == "ready"
  | _ => false

/-- Events that carry an inbound `ready` message. -/
def isReadyEv : ApiEvent → Bool
  | ApiEvent.line msg => isReadyType (parsedType msg)
  | _ => false

/-- The enabled-resource list of the last `start` event in a sequence. -/
def lastStartList : List ApiEvent → Option (List String)
  | [] => none
  | e :: rest =>
    match lastStartList rest with
    | some l => some l
    | none =>
      match e with
      | ApiEvent.start request => some request.enabledResourcesPaths
      | _ => none

/-- Events that are `start` or `refreshResources` calls. -/
def isStartOrRefresh : ApiEvent → Bool
  | ApiEvent.start _ => true
  | ApiEvent.refresh _ => true
  | _ => false

/-! ### Basic lemmas about the primitive operations -/

@[simp] theorem ackState_state (st : ApiState) : (ackState st).state = st.state := rfl

@[simp] theorem toState_state (s : ServerStates) (st : ApiState) :
    (toState s st).state = s := rfl

@[simp] theorem sendIpcEvent_state (t : String) (d : Json) (st : ApiState) :
    (sendIpcEvent t d st).state = st.state := by
  unfold sendIpcEvent; split <;> rfl

@[simp] theorem sendIpcEvent_ipcSocket (t : String) (d : Json) (st : ApiState) :
    (sendIpcEvent t d st).ipcSocket = st.ipcSocket := by
  unfold sendIpcEvent; split <;> rfl

@[simp] theorem sendIpcEvent_ipcServer (t : String) (d : Json) (st : ApiState) :
    (sendIpcEvent t d st).ipcServer = st.ipcServer := by
  unfold sendIpcEvent; split <;> rfl

@[simp] theorem sendIpcEvent_server (t : String) (d : Json) (st : ApiState) :
    (sendIpcEvent t d st).server = st.server := by
  unfold sendIpcEvent; split <;> rfl

@[simp] theorem sendIpcEvent_enabled (t : String) (d : Json) (st : ApiState) :
    (sendIpcEvent t d st).currentEnabledResourcesPaths
      = st.currentEnabledResourcesPaths := by
  unfold sendIpcEvent; split <;> rfl

@[simp] theorem sendIpcEvent_clientHandlers (t : String) (d : Json) (st : ApiState) :
    (sendIpcEvent t d st).clientHandlers = st.clientHandlers := by
  unfold sendIpcEvent; split <;> rfl

@[simp] theorem sendIpcEvent_disposableHandlers (t : String) (d : Json) (st : ApiState) :
    (sendIpcEvent t d st).disposableHandlers = st.disposableHandlers := by
  unfold sendIpcEvent; split <;> rfl

@[simp] theorem sendIpcEvent_emitted (t : String) (d : Json) (st : ApiState) :
    (sendIpcEvent t d st).emitted = st.emitted := by
  unfold sendIpcEvent; split <;> rfl

@[simp] theorem sendIpcEvent_resourcesDir (t : String) (d : Json) (st : ApiState) :
    (sendIpcEvent t d st).resourcesDir = st.resourcesDir := by
  unfold sendIpcEvent; split <;> rfl

theorem sendIpcEvent_of_none (t : String) (d : Json) (st : ApiState)
    (h : st.ipcSocket = none) :
    sendIpcEvent t d st = { st with log := st.log ++ ["No ipcSocket"] } := by
  unfold sendIpcEvent
  rw [if_pos (by simp [h])]

theorem sendIpcEvent_sentIpc_some (t : String) (d : Json) (st : ApiState) (k : Nat)
    (h : st.ipcSocket = some k) :
    (sendIpcEvent t d st).sentIpc = st.sentIpc ++ [(t, d)] := by
  unfold sendIpcEvent
  rw [if_neg (by simp [h])]

/-! ### Lemmas about linking -/

theorem linkComputation_ok (o : FsOracle) (paths : List String)
    (h1 : o.rimrafOk = true) (h2 : o.mkdirpOk = true) :
    linkComputation o paths = Except.ok (createLinks o [] (mkLinks paths)) := by
  unfold linkComputation
  rw [if_neg (by simp [h1]), if_neg (by simp [h2])]

theorem linkResources_ok (o : FsOracle) (paths : List String) (st : ApiState)
    (h1 : o.rimrafOk = true) (h2 : o.mkdirpOk = true) :
    linkResources o paths st
      = Except.ok (sendIpcEvent "refresh" Json.undef
          { st with
              resourcesDir := (createLinks o [] (mkLinks paths)).1
              log := st.log ++ (createLinks o [] (mkLinks paths)).2 }) := by
  unfold linkResources
  rw [linkComputation_ok o paths h1 h2]

theorem linkResources_ok_elim {o : FsOracle} {paths : List String}
    {st st2 : ApiState} (h : linkResources o paths st = Except.ok st2) :
    st2.state = st.state ∧ st2.ipcSocket = st.ipcSocket
      ∧ st2.currentEnabledResourcesPaths = st.currentEnabledResourcesPaths
      ∧ st2.clientHandlers = st.clientHandlers
      ∧ st2.disposableHandlers = st.disposableHandlers
      ∧ st2.emitted = st.emitted
      ∧ st2.server = st.server ∧ st2.ipcServer = st.ipcServer := by
  unfold linkResources at h
  cases hc : linkComputation o paths with
  | error e => rw [hc] at h; exact absurd h (by simp)
  | ok dl =>
    rw [hc] at h
    simp only [Except.ok.injEq] at h
    subst h
    simp

/-! ### Lemmas about the send folds -/

theorem sendRestarts_cons (n : String) (ns : List String) (st : ApiState) :
    sendRestarts (n :: ns) st
      = sendRestarts ns (sendIpcEvent "restart" (Json.str n) st) := rfl

@[simp] theorem sendRestarts_state (names : List String) (st : ApiState) :
    (sendRestarts names st).state = st.state := by
  induction names generalizing st with
  | nil => rfl
  | cons n ns ih => rw [sendRestarts_cons, ih, sendIpcEvent_state]

@[simp] theorem sendRestarts_ipcSocket (names : List String) (st : ApiState) :
    (sendRestarts names st).ipcSocket = st.ipcSocket := by
  induction names generalizing st with
  | nil => rfl
  | cons n ns ih => rw [sendRestarts_cons, ih, sendIpcEvent_ipcSocket]

@[simp] theorem sendRestarts_enabled (names : List String) (st : ApiState) :
    (sendRestarts names st).currentEnabledResourcesPaths
      = st.currentEnabledResourcesPaths := by
  induction names generalizing st with
  | nil => rfl
  | cons n ns ih => rw [sendRestarts_cons, ih, sendIpcEvent_enabled]

theorem sendRestarts_sentIpc (names : List String) (st : ApiState) (k : Nat)
    (h : st.ipcSocket = some k) :
    (sendRestarts names st).sentIpc
      = st.sentIpc ++ names.map (fun n => ("restart", Json.str n)) := by
  induction names generalizing st with
  | nil => simp [sendRestarts]
  | cons n ns ih =>
    rw [sendRestarts_cons, ih (sendIpcEvent "restart" (Json.str n) st)
      (by rw [sendIpcEvent_ipcSocket]; exact h)]
    rw [sendIpcEvent_sentIpc_some _ _ _ k h]
    simp

theorem foldlSend_state (n : String) (hs : List (Nat × HandlerKind)) (st : ApiState) :
    (hs.foldl (fun s _ => sendIpcEvent "restart" (Json.str n) s) st).state
      = st.state := by
  induction hs generalizing st with
  | nil => rfl
  | cons h t ih => rw [List.foldl_cons, ih, sendIpcEvent_state]

theorem refresh_then_restarts_sentIpc (names : List String) (st : ApiState)
    (k : Nat) (h : st.ipcSocket = some k) :
    (sendRestarts names (sendIpcEvent "refresh" Json.undef st)).sentIpc
      = st.sentIpc ++ ("refresh", Json.undef)
          :: names.map (fun n => ("restart", Json.str n)) := by
  rw [sendRestarts_sentIpc names _ k (by rw [sendIpcEvent_ipcSocket]; exact h),
    sendIpcEvent_sentIpc_some _ _ _ k h]
  simp

/-! ### Projections of the method bodies -/

@[simp] theorem startPrelude_state (st : ApiState) :
    (startPrelude st).state = ServerStates.booting := rfl

theorem startAfterLink_state (o : FsOracle) (request : ServerStartRequest)
    (st3 : ApiState) : (startAfterLink o request st3).state = st3.state := by
  unfold startAfterLink
  split <;> rfl

theorem start_state (o : FsOracle) (request : ServerStartRequest) (st : ApiState) :
    (start o request st).state = ServerStates.booting := by
  unfold start
  cases h : linkResources o request.enabledResourcesPaths (startPrelude st) with
  | error e => simp
  | ok st3 =>
    rw [startAfterLink_state, (linkResources_ok_elim h).1, startPrelude_state]

theorem start_enabled (o : FsOracle) (request : ServerStartRequest) (st : ApiState)
    (h1 : o.rimrafOk = true) (h2 : o.mkdirpOk = true) (h3 : o.spawnOk = true) :
    (start o request st).currentEnabledResourcesPaths
      = request.enabledResourcesPaths := by
  unfold start
  rw [linkResources_ok o request.enabledResourcesPaths _ h1 h2]
  show (startAfterLink o request _).currentEnabledResourcesPaths = _
  unfold startAfterLink
  rw [if_neg (by simp [h3])]

theorem refreshResources_state (o : FsOracle)
    (request : ServerRefreshResourcesRequest) (st : ApiState) :
    (refreshResources o request st).state = st.state := by
  unfold refreshResources
  cases h : linkResources o request.enabledResourcesPaths st with
  | error e => rfl
  | ok st2 => rw [sendIpcEvent_state, (linkResources_ok_elim h).1]

theorem refreshResources_enabled (o : FsOracle)
    (request : ServerRefreshResourcesRequest) (st : ApiState) :
    (refreshResources o request st).currentEnabledResourcesPaths
      = st.currentEnabledResourcesPaths := by
  unfold refreshResources
  cases h : linkResources o request.enabledResourcesPaths st with
  | error e => rfl
  | ok st2 => rw [sendIpcEvent_enabled, (linkResources_ok_elim h).2.2.1]

theorem handleRelinkResources_state (o : FsOracle) (request : RelinkResourcesRequest)
    (st : ApiState) : (handleRelinkResources o request st).state = st.state := by
  unfold handleRelinkResources
  split
  · rfl
  · cases h : linkResources o request.resourcesPaths st with
    | error e => rfl
    | ok st2 => rw [sendRestarts_state, (linkResources_ok_elim h).1]

theorem handleResourceRestart_state (n : String) (st : ApiState) :
    (handleResourceRestart n st).state = st.state := by
  unfold handleResourceRestart
  rw [sendIpcEvent_state]

theorem handleResourceRestart_clientHandlers (n : String) (st : ApiState) :
    (handleResourceRestart n st).clientHandlers = st.clientHandlers := by
  unfold handleResourceRestart
  rw [sendIpcEvent_clientHandlers]

theorem onClientRestartResource_state (n : String) (st : ApiState) :
    (onClientRestartResource n st).state = st.state := by
  unfold onClientRestartResource
  rw [foldlSend_state, handleResourceRestart_state]

theorem handleLine_state (msg : String) (st : ApiState) :
    (handleLine msg st).state
      = if isReadyType (parsedType msg) then ServerStates.up else st.state := by
  unfold handleLine parsedType
  cases hj : jsonParse msg with
  | none => simp [isReadyType]
  | some v =>
    cases hd : destruct2 v with
    | none => simp [hd, isReadyType]
    | some td =>
      obtain ⟨t, d⟩ := td
      cases t with
      | str s =>
        by_cases hs : s = "state"
        · subst hs
          simp [hd, isReadyType]
        · by_cases hr : s = "ready"
          · subst hr
            simp [hd, isReadyType]
          · simp [hd, hs, hr, isReadyType]
      | null => simp [hd, isReadyType]
      | undef => simp [hd, isReadyType]
      | bool b => simp [hd, isReadyType]
      | num n => simp [hd, isReadyType]
      | arr xs => simp [hd, isReadyType]

/-! ### The state trajectory -/

theorem step_state_mid (o : FsOracle) (st : ApiState) (e : ApiEvent)
    (he : isMidEv e = true) :
    (step o st e).state = if isReadyEv e then ServerStates.up else st.state := by
  cases e with
  | start request => simp [isMidEv] at he
  | processExit => simp [isMidEv] at he
  | line msg =>
    show (handleLine msg st).state = _
    rw [handleLine_state]
    rfl
  | stop => simp [step, isReadyEv]
  | refresh request => simp [step, isReadyEv, refreshResources_state]
  | relink request => simp [step, isReadyEv, handleRelinkResources_state]
  | ack => simp [step, isReadyEv, ackState]
  | clientRestartResource n => simp [step, isReadyEv, onClientRestartResource_state]
  | connect sock => simp [step, isReadyEv, onConnection]
  | socketClosed => simp [step, isReadyEv]
  | serverClosed => simp [step, isReadyEv, onIpcServerClose]
  | stdoutData chunk => simp [step, isReadyEv]

theorem traceTail_cons (o : FsOracle) (st : ApiState) (e : ApiEvent)
    (rest : List ApiEvent) :
    traceTail o st (e :: rest)
      = (step o st e).state :: traceTail o (step o st e) rest := rfl

theorem dedupRun_cons_cons (a b : ServerStates) (l : List ServerStates) :
    dedupRun (a :: b :: l)
      = if a = b then dedupRun (b :: l) else a :: dedupRun (b :: l) := rfl

theorem dedup_trace_up (o : FsOracle) (evs : List ApiEvent) (st : ApiState)
    (hm : ∀ e ∈ evs, isMidEv e = true) (hst : st.state = ServerStates.up) :
    dedupRun (ServerStates.up :: traceTail o st (evs ++ [ApiEvent.processExit]))
      = [ServerStates.up, ServerStates.down] := by
  induction evs generalizing st with
  | nil =>
    show dedupRun [ServerStates.up, (onServerExit st).state] = _
    rfl
  | cons e rest ih =>
    rw [List.cons_append, traceTail_cons]
    have hse : (step o st e).state = ServerStates.up := by
      rw [step_state_mid o st e (hm e (List.mem_cons_self e rest))]
      split
      · rfl
      · exact hst
    rw [hse, dedupRun_cons_cons, if_pos rfl]
    exact ih (step o st e) (fun x hx => hm x (List.mem_cons_of_mem e hx)) hse

theorem dedup_trace_booting (o : FsOracle) (evs : List ApiEvent) (st : ApiState)
    (hm : ∀ e ∈ evs, isMidEv e = true) (hst : st.state = ServerStates.booting) :
    dedupRun (ServerStates.booting :: traceTail o st (evs ++ [ApiEvent.processExit]))
      = if evs.any isReadyEv then
          [ServerStates.booting, ServerStates.up, ServerStates.down]
        else [ServerStates.booting, ServerStates.down] := by
  induction evs generalizing st with
  | nil =>
    show dedupRun [ServerStates.booting, (onServerExit st).state] = _
    rfl
  | cons e rest ih =>
    rw [List.cons_append, traceTail_cons]
    by_cases hr : isReadyEv e = true
    · have hse : (step o st e).state = ServerStates.up := by
        rw [step_state_mid o st e (hm e (List.mem_cons_self e rest)), if_pos hr]
      rw [hse, dedupRun_cons_cons, if_neg (by simp)]
      rw [dedup_trace_up o rest (step o st e)
        (fun x hx => hm x (List.mem_cons_of_mem e hx)) hse]
      simp [List.any_cons, hr]
    · rw [Bool.not_eq_true] at hr
      have hse : (step o st e).state = ServerStates.booting := by
        rw [step_state_mid o st e (hm e (List.mem_cons_self e rest)), hr,
          if_neg (by simp)]
        exact hst
      rw [hse, dedupRun_cons_cons, if_pos rfl]
      rw [ih (step o st e) (fun x hx => hm x (List.mem_cons_of_mem e hx)) hse]
      simp [List.any_cons, hr]

/-! ### Claim theorems -/

/-- Claim C1 (confirmed): for every run that begins with a `start()` call and
ends with the external process exiting, with arbitrary intervening events
(inbound lines, refreshes, relinks, stop, connection events, output data),
the sequence of distinct values the lifecycle `state` field moves through is
exactly down → booting → up → down, or down → booting → down when no inbound
`ready` message arrives; no other ordering is reachable. -/
theorem serverStateSequence (o : FsOracle) (st0 : ApiState)
    (request : ServerStartRequest) (mids : List ApiEvent)
    (h0 : st0.state = ServerStates.down)
    (hm : ∀ e ∈ mids, isMidEv e = true) :
    dedupRun (stateTrace o st0
        (ApiEvent.start request :: (mids ++ [ApiEvent.processExit])))
      = if mids.any isReadyEv then
          [ServerStates.down, ServerStates.booting, ServerStates.up,
           ServerStates.down]
        else [ServerStates.down, ServerStates.booting, ServerStates.down] := by
  unfold stateTrace
  rw [traceTail_cons, h0]
  have hb : (step o st0 (ApiEvent.start request)).state = ServerStates.booting :=
    start_state o request st0
  rw [hb, dedupRun_cons_cons, if_neg (by simp)]
  rw [dedup_trace_booting o mids (step o st0 (ApiEvent.start request)) hm hb]
  by_cases h : mids.any isReadyEv = true <;> simp [h]

/-- Witness for `serverStateSequence`: a concrete start / connect / ready /
exit run realises down → booting → up → down. -/
theorem serverStateSequence_witness :
    dedupRun (stateTrace allOk initialState
        (ApiEvent.start ⟨"/p", ["/p/res/a"]⟩ ::
          ([ApiEvent.connect 1, ApiEvent.line "[\"ready\",null]"]
            ++ [ApiEvent.processExit])))
      = [ServerStates.down, ServerStates.booting, ServerStates.up,
         ServerStates.down] := by
  have h := serverStateSequence allOk initialState ⟨"/p", ["/p/res/a"]⟩
    [ApiEvent.connect 1, ApiEvent.line "[\"ready\",null]"] rfl (by decide)
  rw [h, if_pos (by rfl)]

/-- Claim C10 (confirmed): an inbound well-formed `ready` message makes
`toState(ServerStates.up)` run unconditionally — whatever the current state,
the state becomes `up` and a state broadcast is emitted. -/
theorem readyAlwaysGoesUp (msg : String) (st : ApiState)
    (h : parsedType msg = some (Json.str "ready")) :
    handleLine msg st = toState ServerStates.up st
    ∧ (handleLine msg st).state = ServerStates.up
    ∧ (handleLine msg st).emitted
        = st.emitted ++ [ClientEvent.stateEv ServerStates.up] := by
  have hmain : handleLine msg st = toState ServerStates.up st := by
    cases hj : jsonParse msg with
    | none => simp [parsedType, hj] at h
    | some v =>
      cases hd : destruct2 v with
      | none => simp [parsedType, hj, hd] at h
      | some td =>
        obtain ⟨t, d⟩ := td
        simp only [parsedType, hj, hd, Option.some.injEq] at h
        subst h
        simp [handleLine, hj, hd]
  exact ⟨hmain, by rw [hmain]; rfl, by rw [hmain]; rfl⟩

/-- Witness for `readyAlwaysGoesUp`: a `ready` line arriving while the state
already is `up` still re-runs `toState up` and re-broadcasts. -/
theorem readyAlwaysGoesUp_witness :
    handleLine "[\"ready\",null]" { initialState with state := ServerStates.up }
        = toState ServerStates.up { initialState with state := ServerStates.up }
      ∧ (handleLine "[\"ready\",null]"
          { initialState with state := ServerStates.up }).state = ServerStates.up
      ∧ (handleLine "[\"ready\",null]"
          { initialState with state := ServerStates.up }).emitted
        = [ClientEvent.stateEv ServerStates.up] :=
  readyAlwaysGoesUp "[\"ready\",null]"
    { initialState with state := ServerStates.up } rfl

/-- Claim C7 (confirmed): `sendIpcEvent` with no connected peer is a total
function that only appends the `No ipcSocket` log entry — every other field,
in particular the outbound message list `sentIpc`, is unchanged, and no
exception path exists. -/
theorem sendWithoutPeer (eventType : String) (data : Json) (st : ApiState)
    (h : st.ipcSocket = none) :
    sendIpcEvent eventType data st
      = { st with log := st.log ++ ["No ipcSocket"] } :=
  sendIpcEvent_of_none eventType data st h

/-- Witness for `sendWithoutPeer` on the freshly constructed instance. -/
theorem sendWithoutPeer_witness :
    sendIpcEvent "restart" (Json.str "a") initialState
      = { initialState with log := ["No ipcSocket"] } :=
  sendWithoutPeer "restart" (Json.str "a") initialState rfl

theorem ensure_foldl (ps : List String) (acc : List String) :
    ps.foldl (fun args resourcePath => args ++ ["+ensure", basename resourcePath]) acc
      = acc ++ ps.flatMap (fun p => ["+ensure", basename p]) := by
  induction ps generalizing acc with
  | nil => simp
  | cons p ps ih => simp [List.foldl_cons, ih, List.append_assoc]

/-- Claim C8 (confirmed): the launch argument list is the fixed base list —
whose final pair is the ensure of the bridge resource `sdk-game` — followed
by exactly one `+ensure basename(path)` pair per enabled resource, appended
in the caller-supplied order. -/
theorem startArgsShape (enabledResourcesPaths : List String) :
    fxserverArgs enabledResourcesPaths
      = baseFxserverArgs
        ++ enabledResourcesPaths.flatMap (fun p => ["+ensure", basename p])
    ∧ baseFxserverArgs.length = 21
    ∧ baseFxserverArgs.drop 19 = ["+ensure", "sdk-game"] := by
  refine ⟨?_, rfl, rfl⟩
  unfold fxserverArgs
  exact ensure_foldl enabledResourcesPaths baseFxserverArgs

/-- Claim C2 (corrected, amended): `currentEnabledResourcesPaths` tracks only
the most recent successfully completed `start` — `refreshResources` never
assigns it (line 150 is the only write).  For any sequence of `start` /
`refreshResources` calls all completing successfully, the field equals the
list passed to the last `start`, or keeps its prior value when none
occurred. -/
theorem currentEnabledTracksLastStart (o : FsOracle) (st : ApiState)
    (evs : List ApiEvent)
    (h1 : o.rimrafOk = true) (h2 : o.mkdirpOk = true) (h3 : o.spawnOk = true)
    (hm : ∀ e ∈ evs, isStartOrRefresh e = true) :
    (run o st evs).currentEnabledResourcesPaths
      = (lastStartList evs).getD st.currentEnabledResourcesPaths := by
  induction evs generalizing st with
  | nil => rfl
  | cons e rest ih =>
    have hrun : run o st (e :: rest) = run o (step o st e) rest := rfl
    rw [hrun, ih (step o st e) (fun x hx => hm x (List.mem_cons_of_mem e hx))]
    have he := hm e (List.mem_cons_self e rest)
    cases hl : lastStartList rest with
    | some l => simp [lastStartList, hl]
    | none =>
      cases e with
      | start request =>
        simp [lastStartList, hl, step, start_enabled o request st h1 h2 h3]
      | refresh request =>
        simp [lastStartList, hl, step, refreshResources_enabled o request st]
      | stop => simp [isStartOrRefresh] at he
      | relink request => simp [isStartOrRefresh] at he
      | ack => simp [isStartOrRefresh] at he
      | clientRestartResource n => simp [isStartOrRefresh] at he
      | connect sock => simp [isStartOrRefresh] at he
      | socketClosed => simp [isStartOrRefresh] at he
      | serverClosed => simp [isStartOrRefresh] at he
      | line msg => simp [isStartOrRefresh] at he
      | stdoutData chunk => simp [isStartOrRefresh] at he
      | processExit => simp [isStartOrRefresh] at he

/-- Witness for `currentEnabledTracksLastStart` on a concrete start-then-
refresh run. -/
theorem currentEnabledTracksLastStart_witness :
    (run allOk initialState
        [ApiEvent.start ⟨"/p", ["/p/res/a"]⟩,
         ApiEvent.refresh ⟨"/p", ["/p/res/b"]⟩]).currentEnabledResourcesPaths
      = (lastStartList
          [ApiEvent.start ⟨"/p", ["/p/res/a"]⟩,
           ApiEvent.refresh ⟨"/p", ["/p/res/b"]⟩]).getD [] :=
  currentEnabledTracksLastStart allOk initialState
    [ApiEvent.start ⟨"/p", ["/p/res/a"]⟩, ApiEvent.refresh ⟨"/p", ["/p/res/b"]⟩]
    rfl rfl rfl (by decide)

/-- Counterexample for claim C2: a `start` with `/p/res/a` followed by a
successfully completed `refreshResources` with `/p/res/b` leaves the field
at the start list — not at the list passed to the most recent successfully
completed call, as the claim requires. -/
theorem refreshIgnoresEnabled_counterexample :
    (run allOk initialState
        [ApiEvent.start ⟨"/p", ["/p/res/a"]⟩,
         ApiEvent.refresh ⟨"/p", ["/p/res/b"]⟩]).currentEnabledResourcesPaths
      = ["/p/res/a"]
    ∧ (run allOk initialState
        [ApiEvent.start ⟨"/p", ["/p/res/a"]⟩,
         ApiEvent.refresh ⟨"/p", ["/p/res/b"]⟩]).currentEnabledResourcesPaths
      ≠ ["/p/res/b"] := by
  exact ⟨rfl, by decide⟩

/-- Claim C3 (corrected, amended): handler teardown is tied to the close
event of the IPC *server* (requested on process exit), not to the close of
an individual peer connection.  When the server closes, the peer reference
is cleared and every handler registered through its connections is released,
after which a control-surface restart event reaches only the permanent
constructor handler. -/
theorem handlersReleasedOnServerClose (st : ApiState) (n : String)
    (h : st.clientHandlers = st.disposableHandlers) :
    (onIpcServerClose st).ipcSocket = none
    ∧ (onIpcServerClose st).clientHandlers = []
    ∧ (onIpcServerClose st).disposableHandlers = []
    ∧ onClientRestartResource n (onIpcServerClose st)
        = handleResourceRestart n (onIpcServerClose st) := by
  have hch : (onIpcServerClose st).clientHandlers = [] := by
    show st.clientHandlers.filter
        (fun x => !(st.disposableHandlers.contains x)) = []
    rw [h]
    apply List.filter_eq_nil_iff.mpr
    intro a ha
    simp only [Bool.not_eq_true, Bool.not_eq_false]
    simpa [List.elem_iff] using ha
  refine ⟨rfl, hch, rfl, ?_⟩
  have hinv : invokedRestartHandlers
      (handleResourceRestart n (onIpcServerClose st)) = [] := by
    unfold invokedRestartHandlers
    rw [handleResourceRestart_clientHandlers, hch]
    rfl
  show List.foldl (fun s _ => sendIpcEvent "restart" (Json.str n) s)
      (handleResourceRestart n (onIpcServerClose st))
      (invokedRestartHandlers (handleResourceRestart n (onIpcServerClose st))) = _
  rw [hinv]
  rfl

/-- Witness for `handlersReleasedOnServerClose` after one connection. -/
theorem handlersReleasedOnServerClose_witness :
    (onIpcServerClose (onConnection 1 initialState)).ipcSocket = none
    ∧ (onIpcServerClose (onConnection 1 initialState)).clientHandlers = []
    ∧ (onIpcServerClose (onConnection 1 initialState)).disposableHandlers = []
    ∧ onClientRestartResource "a" (onIpcServerClose (onConnection 1 initialState))
        = handleResourceRestart "a" (onIpcServerClose (onConnection 1 initialState)) :=
  handlersReleasedOnServerClose (onConnection 1 initialState) "a" rfl

/-- The state reached by: start, connection 1, the socket of connection 1 closes,
connection 2 arrives (the IPC server keeps listening throughout). -/
def c3State : ApiState :=
  run allOk initialState
    [ApiEvent.start ⟨"/p", ["/p/res/a"]⟩, ApiEvent.connect 1,
     ApiEvent.socketClosed, ApiEvent.connect 2]

/-- Counterexample for claim C3: after the socket of connection 1 has closed, its
control-surface handler is still registered, and a restart-resource event
arriving during the subsequent connection 2 is forwarded by it — three
`restart` messages are written (constructor handler plus the handlers of
connections 1 and 2), where the claim allows the handler of connection 1 to
forward none. -/
theorem staleHandlerStillFires_counterexample :
    (1, HandlerKind.restartResource) ∈ c3State.clientHandlers
    ∧ (onClientRestartResource "a" c3State).sentIpc.length
        = c3State.sentIpc.length + 3 := by
  exact ⟨by decide, rfl⟩

/-- Claim C6 (corrected, amended): an inbound line that fails to parse as
JSON, or whose parsed value is not destructurable (neither an array nor a
string), is caught, logged and dropped: only the log changes, so the
connection fields and the lifecycle state are untouched.  A line parsing to
an array of the wrong length is NOT dropped — it is dispatched on its first
element (see the counterexample). -/
theorem malformedLineDropped (msg : String) (st : ApiState)
    (h : jsonParse msg = none
      ∨ ∃ v, jsonParse msg = some v ∧ destruct2 v = none) :
    handleLine msg st
      = { st with log := st.log ++ ["Error parsing message from sdk-game:"] } := by
  rcases h with h | ⟨v, hv, hd⟩
  · simp [handleLine, h]
  · simp [handleLine, hv, hd]

/-- Witness for `malformedLineDropped` on the `\x7b"bad json` line from the spec. -/
theorem malformedLineDropped_witness :
    handleLine "\x7b\"bad json" initialState
      = { initialState with log := ["Error parsing message from sdk-game:"] } :=
  malformedLineDropped "\x7b\"bad json" initialState (Or.inl rfl)

/-- Counterexample for claim C6: the inbound line `["ready"]` is well-formed
JSON but not a 2-element `[type, payload]` array; it is nevertheless not
dropped — destructuring succeeds with `undefined` payload, the `ready` case
runs, the lifecycle state changes from `booting` to `up`, and nothing is
logged. -/
theorem shortArrayNotDropped_counterexample :
    (handleLine "[\"ready\"]"
        { initialState with state := ServerStates.booting }).state
      = ServerStates.up
    ∧ (handleLine "[\"ready\"]"
        { initialState with state := ServerStates.booting }).log
      = [] := by
  exact ⟨rfl, rfl⟩

/-! ### Lemmas about `createLinks` -/

theorem createLinks_of_disjoint (o : FsOracle) (ls : List ResourceLink) :
    ∀ acc : List ResourceLink,
    (∀ l ∈ ls, acc.any (fun d => d.name == l.name) = false) →
    ((ls.map ResourceLink.name).Nodup) →
    createLinks o acc ls
      = (acc ++ ls.filter (fun l => !o.linkFails l.name),
         (ls.filter (fun l => o.linkFails l.name)).map
           (fun _ => "Failed to link resource")) := by
  induction ls with
  | nil =>
    intro acc hd hnd
    simp [createLinks]
  | cons l ls ih =>
    intro acc hd hnd
    have hal : acc.any (fun d => d.name == l.name) = false :=
      hd l (List.mem_cons_self l ls)
    have hnd2 : (ls.map ResourceLink.name).Nodup := by
      rw [List.map_cons, List.nodup_cons] at hnd
      exact hnd.2
    have hnotin : l.name ∉ ls.map ResourceLink.name := by
      rw [List.map_cons, List.nodup_cons] at hnd
      exact hnd.1
    unfold createLinks
    rw [hal, Bool.or_false]
    by_cases hf : o.linkFails l.name = true
    · rw [if_pos hf]
      show ((createLinks o acc ls).1,
          "Failed to link resource" :: (createLinks o acc ls).2) = _
      rw [ih acc (fun x hx => hd x (List.mem_cons_of_mem l hx)) hnd2]
      simp [List.filter_cons, hf]
    · rw [Bool.not_eq_true] at hf
      rw [hf, if_neg (by simp)]
      rw [ih (acc ++ [l]) ?_ hnd2]
      · simp [List.filter_cons, hf, List.append_assoc]
      · intro x hx
        rw [List.any_append, hd x (List.mem_cons_of_mem l hx)]
        have hne : l.name ≠ x.name := by
          intro hEq
          exact hnotin (hEq ▸ List.mem_map_of_mem ResourceLink.name hx)
        simp [hne]

theorem createLinks_names_nodup (o : FsOracle) (ls : List ResourceLink) :
    ∀ acc : List ResourceLink, ((acc.map ResourceLink.name).Nodup) →
    (((createLinks o acc ls).1).map ResourceLink.name).Nodup := by
  induction ls with
  | nil =>
    intro acc ha
    simpa [createLinks]
  | cons l ls ih =>
    intro acc ha
    unfold createLinks
    by_cases hc : (o.linkFails l.name || acc.any (fun d => d.name == l.name)) = true
    · rw [if_pos hc]
      show (((createLinks o acc ls).1).map ResourceLink.name).Nodup
      exact ih acc ha
    · rw [if_neg hc]
      apply ih
      simp only [Bool.or_eq_true, not_or] at hc
      have hany : acc.any (fun d => d.name == l.name) = false :=
        Bool.not_eq_true _ ▸ hc.2
      rw [List.map_append, List.map_singleton, List.nodup_append]
      refine ⟨ha, List.nodup_singleton _, ?_⟩
      intro x hx hx2
      rw [List.mem_singleton] at hx2
      subst hx2
      rw [List.mem_map] at hx
      obtain ⟨d, hdm, hdn⟩ := hx
      rw [List.any_eq_false] at hany
      exact absurd (by simp [hdn]) (hany d hdm)

theorem createLinks_mem_subset (o : FsOracle) (ls : List ResourceLink) :
    ∀ acc : List ResourceLink, ∀ l ∈ (createLinks o acc ls).1, l ∈ acc ∨ l ∈ ls := by
  induction ls with
  | nil =>
    intro acc l hl
    exact Or.inl (by simpa [createLinks] using hl)
  | cons x ls ih =>
    intro acc l hl
    unfold createLinks at hl
    by_cases hc : (o.linkFails x.name || acc.any (fun d => d.name == x.name)) = true
    · rw [if_pos hc] at hl
      have hl2 : l ∈ (createLinks o acc ls).1 := hl
      rcases ih acc l hl2 with h | h
      · exact Or.inl h
      · exact Or.inr (List.mem_cons_of_mem x h)
    · rw [if_neg hc] at hl
      rcases ih (acc ++ [x]) l hl with h | h
      · rcases List.mem_append.mp h with h | h
        · exact Or.inl h
        · rw [List.mem_singleton] at h
          subst h
          exact Or.inr (List.mem_cons_self l ls)
      · exact Or.inr (List.mem_cons_of_mem x h)

/-- Claim C4 (confirmed): a relink request is a complete no-op when the state
is not `up`; when it is `up`, after re-linking (one `refresh` write) a
`restart` directive is written for exactly the basenames of those entries of
`currentEnabledResourcesPaths` whose source path starts with the requested
`restartResourcesWithPath` prefix, and for no other resource. -/
theorem relinkRestartScope (stN stU : ApiState) (request : RelinkResourcesRequest)
    (o : FsOracle) (p : String) (sock : Nat)
    (hN : stN.state ≠ ServerStates.up)
    (hU : stU.state = ServerStates.up)
    (hs : stU.ipcSocket = some sock)
    (hp : request.restartResourcesWithPath = some p)
    (hp2 : p ≠ "")
    (h1 : o.rimrafOk = true) (h2 : o.mkdirpOk = true) :
    handleRelinkResources o request stN = stN
    ∧ (handleRelinkResources o request stU).sentIpc
        = stU.sentIpc ++ ("refresh", Json.undef)
          :: (restartTargets stU request).map (fun n => ("restart", Json.str n))
    ∧ (∀ n, (("restart", Json.str n)
          ∈ (handleRelinkResources o request stU).sentIpc.drop stU.sentIpc.length)
        ↔ ∃ rp ∈ stU.currentEnabledResourcesPaths,
            jsStartsWith rp p = true ∧ basename rp = n) := by
  have hNoOp : handleRelinkResources o request stN = stN := by
    unfold handleRelinkResources
    rw [if_pos hN]
  have hSent : (handleRelinkResources o request stU).sentIpc
      = stU.sentIpc ++ ("refresh", Json.undef)
        :: (restartTargets stU request).map (fun n => ("restart", Json.str n)) := by
    unfold handleRelinkResources
    rw [if_neg (by simp [hU])]
    rw [linkResources_ok o request.resourcesPaths stU h1 h2]
    show (sendRestarts (restartTargets stU request) _).sentIpc = _
    exact refresh_then_restarts_sentIpc (restartTargets stU request) _ sock hs
  refine ⟨hNoOp, hSent, fun n => ?_⟩
  rw [hSent, List.drop_left]
  simp only [restartTargets, hp, if_neg hp2, List.mem_cons, List.mem_map,
    List.mem_filter, Prod.mk.injEq]
  constructor
  · rintro (⟨hbad, _⟩ | ⟨a, ⟨rp, ⟨hrm, hrs⟩, hrb⟩, _, ha⟩)
    · exact absurd hbad (by decide)
    · exact ⟨rp, hrm, hrs, by rw [hrb]; exact Json.str.inj ha⟩
  · rintro ⟨rp, hrm, hrs, hrb⟩
    exact Or.inr ⟨n, ⟨rp, ⟨hrm, hrs⟩, hrb⟩, trivial, rfl⟩

/-- The concrete `up` state used to witness `relinkRestartScope`. -/
def c4State : ApiState :=
  { initialState with
      state := ServerStates.up
      ipcSocket := some 1
      currentEnabledResourcesPaths := ["/p/res/a", "/p/res/b", "/q/c"] }

/-- The concrete relink request used to witness `relinkRestartScope`. -/
def c4Request : RelinkResourcesRequest :=
  ⟨"/p", ["/p/res/a", "/p/res/b", "/q/c"], some "/p/res"⟩

/-- Witness for `relinkRestartScope`: with `/p/res` as prefix, exactly `a`
and `b` receive restart directives and `c` does not; in a non-`up` state the
request does nothing. -/
theorem relinkRestartScope_witness :
    handleRelinkResources allOk c4Request initialState = initialState
    ∧ (handleRelinkResources allOk c4Request c4State).sentIpc
      = [("refresh", Json.undef), ("restart", Json.str "a"),
         ("restart", Json.str "b")] := by
  have h := relinkRestartScope initialState c4State c4Request allOk "/p/res" 1
    (by intro hEq; cases hEq) rfl rfl rfl (by decide) rfl rfl
  refine ⟨h.1, ?_⟩
  rw [h.2.1]
  rfl

/-- Claim C5 (confirmed): in `linkResources`, a failing directory removal or
recreation propagates to the caller (the operation returns the error and no
link is attempted), whereas an individual link failure only contributes a log
entry: every other link is still attempted and created, and the operation
completes normally with `Except.ok`. -/
theorem linkFailureHandling (o1 o2 : FsOracle) (paths : List String)
    (hf : o1.rimrafOk = false ∨ o1.mkdirpOk = false)
    (h1 : o2.rimrafOk = true) (h2 : o2.mkdirpOk = true)
    (hnd : ((mkLinks paths).map ResourceLink.name).Nodup) :
    linkComputation o1 paths = Except.error ()
    ∧ linkComputation o2 paths
        = Except.ok ((mkLinks paths).filter (fun l => !o2.linkFails l.name),
            ((mkLinks paths).filter (fun l => o2.linkFails l.name)).map
              (fun _ => "Failed to link resource")) := by
  constructor
  · unfold linkComputation
    rcases hf with hf | hf
    · rw [if_pos hf]
    · by_cases hr : o1.rimrafOk = false
      · rw [if_pos hr]
      · rw [if_neg hr, if_pos hf]
  · rw [linkComputation_ok o2 paths h1 h2,
      createLinks_of_disjoint o2 (mkLinks paths) [] (fun l hl => rfl) hnd]
    simp

/-- Witness for `linkFailureHandling`: a failing `rimraf` aborts the whole
operation, while a symlink failure on `b` alone leaves `sdk-game` and `a`
linked with one failure logged. -/
theorem linkFailureHandling_witness :
    linkComputation ⟨false, true, fun _ => false, true⟩ ["/p/a", "/p/b"]
      = Except.error ()
    ∧ linkComputation ⟨true, true, fun n => n == "b", true⟩ ["/p/a", "/p/b"]
      = Except.ok ([⟨"sdk-game", sdkGamePath⟩, ⟨"a", "/p/a"⟩],
          ["Failed to link resource"]) := by
  have h := linkFailureHandling ⟨false, true, fun _ => false, true⟩
    ⟨true, true, fun n => n == "b", true⟩ ["/p/a", "/p/b"]
    (Or.inl rfl) rfl rfl (by decide)
  refine ⟨h.1, ?_⟩
  rw [h.2]
  rfl

/-- Claim C9 (confirmed): the remove-all-then-relink step is idempotent —
with the directory operations succeeding, a second `linkResources` with the
same arguments yields exactly the resources directory of the first, whose
link names carry no duplicates and which contains only links derived from
the desired set (no orphans). -/
theorem linkIdempotent (o : FsOracle) (st : ApiState) (paths : List String)
    (h1 : o.rimrafOk = true) (h2 : o.mkdirpOk = true) :
    ∃ st1 st2,
      linkResources o paths st = Except.ok st1
      ∧ linkResources o paths st1 = Except.ok st2
      ∧ st2.resourcesDir = st1.resourcesDir
      ∧ ((st1.resourcesDir.map ResourceLink.name).Nodup)
      ∧ ∀ l ∈ st1.resourcesDir, l ∈ mkLinks paths := by
  refine ⟨_, _, linkResources_ok o paths st h1 h2,
    linkResources_ok o paths _ h1 h2, by simp, ?_, ?_⟩
  · simp only [sendIpcEvent_resourcesDir]
    exact createLinks_names_nodup o (mkLinks paths) [] (by simp)
  · intro l hl
    simp only [sendIpcEvent_resourcesDir] at hl
    rcases createLinks_mem_subset o (mkLinks paths) [] l hl with h | h
    · exact absurd h (List.not_mem_nil l)
    · exact h

/-- Witness for `linkIdempotent` on a concrete desired set. -/
theorem linkIdempotent_witness :
    ∃ st1 st2,
      linkResources allOk ["/p/res/a"] initialState = Except.ok st1
      ∧ linkResources allOk ["/p/res/a"] st1 = Except.ok st2
      ∧ st2.resourcesDir = st1.resourcesDir
      ∧ ((st1.resourcesDir.map ResourceLink.name).Nodup)
      ∧ ∀ l ∈ st1.resourcesDir, l ∈ mkLinks ["/p/res/a"] :=
  linkIdempotent allOk initialState ["/p/res/a"] rfl rfl

end ServerApiModel
